import Mathlib

/-!
Shallow embedding of the email-sync webhook function (HubSpot → deal matching).

The source is a single Netlify function module containing:
constants (`TARGET_STAGES`, `TARGET_STAGE_VALUES`, `CONFIDENCE_THRESHOLD`),
a retried API wrapper (`hubspotRequest`), pure text helpers
(`cleanSearchValue`, `extractStreetCore`), the confidence scorer
(`scoreMatch`), the matching orchestrator (`findMatch`), the fallback
resolver (`fallbackSingleContactDeal`) and the webhook `handler`.

External I/O (HubSpot API calls) is modelled by a `World` record of
oracles; each oracle returns `Except String` mirroring a JS call that can
throw.  JavaScript strings are modelled by Lean `String`; string helpers
mirroring JS semantics (`split`, `trim`, `toLowerCase`, `includes`) are
defined over the character list so that every definition kernel-evaluates.
-/

/-- Chars of `s` before the first occurrence of `c` — models `s.split(c)[0]`. -/
def takeBeforeChar (c : Char) (s : String) : String :=
  String.mk (s.toList.takeWhile (fun d => d ≠ c))

/-- Models JS `String.prototype.trim` (strip leading/trailing whitespace). -/
def jsTrim (s : String) : String :=
  String.mk (((s.toList.dropWhile Char.isWhitespace).reverse.dropWhile Char.isWhitespace).reverse)

/-- Models JS `String.prototype.toLowerCase` (ASCII case fold suffices here). -/
def jsToLower (s : String) : String :=
  String.mk (s.toList.map Char.toLower)

/-- `startsWithChars pat l` : `pat` occurs at the head of `l`. -/
def startsWithChars : List Char → List Char → Bool
  | [], _ => true
  | _ :: _, [] => false
  | a :: as, b :: bs => a = b && startsWithChars as bs

/-- `hasSubChars pat l` : `pat` occurs contiguously somewhere in `l`. -/
def hasSubChars (pat : List Char) : List Char → Bool
  | [] => startsWithChars pat []
  | b :: rest => startsWithChars pat (b :: rest) || hasSubChars pat rest

/-- Models JS `haystack.includes(needle)` (empty needle always contained). -/
def strContains (haystack needle : String) : Bool :=
  hasSubChars needle.toList haystack.toList

/-- Models the regex `^(\d+)` capture: the maximal leading digit run. -/
def leadingDigits (s : String) : String :=
  String.mk (s.toList.takeWhile Char.isDigit)

/-- Models the JS `||` default on a possibly-missing string field:
`undefined`, `null` and `""` all fall through to the default. -/
def jsOrString (v : Option String) (dflt : String) : String :=
  match v with
  | some s => if s = "" then dflt else s
  | none => dflt

/-- Collapse every whitespace run to a single space —
models `replace(/\s+/g, ' ')`. -/
def collapseWs : List Char → List Char
  | [] => []
  | [c] => if c.isWhitespace then [' '] else [c]
  | c :: d :: rest =>
    if c.isWhitespace && d.isWhitespace then collapseWs (d :: rest)
    else (if c.isWhitespace then ' ' else c) :: collapseWs (d :: rest)

/-- Strip trailing `'.'` characters — models `replace(/[.]+$/, '')`. -/
def stripTrailingDots (s : String) : String :=
  String.mk ((s.toList.reverse.dropWhile (fun c => c = '.')).reverse)

-- ## Data model

/-- Deal record properties as consumed by the function.  Fields are
`Option String` because a HubSpot record may lack any property; every
use site in the source applies `|| ''` except `dealstage`
(where `Set.has(undefined)` is simply `false`). -/
structure DealProps where
  dealname : Option String
  loan_number : Option String
  full_address : Option String
  dealstage : Option String
  deriving DecidableEq, Repr

structure Deal where
  id : String
  properties : DealProps
  deriving DecidableEq, Repr

/-- The identifier sets produced by the (pure) email parser. -/
structure ParsedIdentifiers where
  loanNumbers : List String
  addresses : List String
  dealNames : List String
  deriving DecidableEq, Repr

structure MatchResult where
  deal : Deal
  confidence : Nat
  matchType : String
  deriving DecidableEq, Repr

structure Candidate where
  deal : Deal
  matchType : String
  matchValue : String
  deriving DecidableEq, Repr

structure ScoredCandidate where
  deal : Deal
  matchType : String
  matchValue : String
  score : Nat
  deriving DecidableEq, Repr

/-- `Object.values(TARGET_STAGES)` from the source, in declaration order. -/
def TARGET_STAGE_VALUES : List String :=
  ["presentationscheduled", "closedwon", "4447566", "4447567", "1085330955",
   "1067972413", "1067972416", "1269293461", "1015819060", "1015819061",
   "1018320194", "1018320195", "1015819063", "1018320196", "1018320197"]

/-- Minimum confidence to auto-associate. -/
def CONFIDENCE_THRESHOLD : Nat := 65

/-- `TARGET_STAGE_VALUES.has(deal.properties.dealstage)`. -/
def isTargetStage (deal : Deal) : Bool :=
  match deal.properties.dealstage with
  | some s => TARGET_STAGE_VALUES.contains s
  | none => false

-- ## Pure text helpers of the matcher

/-- `value.split('\n')[0].split('\r')[0].replace(/\s+/g,' ').replace(/[.]+$/,'').trim()`
(with `''` for a falsy input). -/
def cleanSearchValue (value : String) : String :=
  jsTrim (stripTrailingDots
    (String.mk (collapseWs (takeBeforeChar '\r' (takeBeforeChar '\n' value)).toList)))

/-- The street-suffix alternatives of the regex in `extractStreetCore`. -/
def streetSuffixes : List String :=
  ["st", "street", "ave", "avenue", "rd", "road", "dr", "drive", "ln", "lane",
   "blvd", "boulevard", "ct", "court", "way", "pl", "place", "cir", "circle",
   "pkwy", "ter", "terrace", "trl", "hwy"]

/-- Models `replace(/\s+(?:St(?:reet)?|…|Hwy)\.?\s*$/i, '')`: the string
matches iff, after discarding trailing whitespace and one optional dot, the
final whitespace-delimited word is (case-insensitively) one of the suffix
alternatives preceded by at least one whitespace char; the whole matched
tail is removed, otherwise the string is returned unchanged. -/
def stripStreetSuffix (s : String) : String :=
  let rev := s.toList.reverse
  let rev₁ := rev.dropWhile Char.isWhitespace
  let rev₂ := match rev₁ with
    | '.' :: rest => rest
    | _ => rev₁
  let wordRev := rev₂.takeWhile (fun c => ¬ c.isWhitespace)
  let beforeRev := rev₂.drop wordRev.length
  let word := String.mk (wordRev.reverse.map Char.toLower)
  match beforeRev with
  | c :: _ =>
    if c.isWhitespace && streetSuffixes.contains word then
      String.mk ((beforeRev.dropWhile Char.isWhitespace).reverse)
    else s
  | [] => s

/-- Models the test `/^\d+\s+\w+/` (digits, whitespace, then a word char). -/
def startsNumWord (s : String) : Bool :=
  let l := s.toList
  let digits := l.takeWhile Char.isDigit
  let rest₁ := l.drop digits.length
  let ws := rest₁.takeWhile Char.isWhitespace
  let rest₂ := rest₁.drop ws.length
  (!digits.isEmpty) && (!ws.isEmpty) &&
    (match rest₂ with
     | c :: _ => c.isAlphanum || c = '_'
     | [] => false)

/-- `extractStreetCore` from the source. -/
def extractStreetCore (address : String) : String :=
  let beforeComma := jsTrim (takeBeforeChar ',' address)
  let withoutSuffix := jsTrim (stripStreetSuffix beforeComma)
  if startsNumWord withoutSuffix then withoutSuffix else beforeComma

-- ## Confidence scorer

/-- `scoreMatch(matchType, matchValue, deal, parsed)` from the source,
transcribed branch for branch. -/
def scoreMatch (matchType matchValue : String) (deal : Deal)
    (parsed : ParsedIdentifiers) : Nat :=
  let cleanMatch := jsToLower (jsTrim (takeBeforeChar '\n' matchValue))
  let base : Nat :=
    if matchType = "loan_number" then 100
    else if matchType = "deal_name" then
      let dealName := jsToLower (jsOrString deal.properties.dealname "")
      if dealName = cleanMatch then 95
      else if strContains dealName cleanMatch then 90
      else 85
    else if matchType = "address" then
      let fullAddress := jsToLower (jsOrString deal.properties.full_address "")
      let dealName := jsToLower (jsOrString deal.properties.dealname "")
      let streetNum := leadingDigits cleanMatch
      let s₀ : Nat := 80
      let s₁ :=
        if streetNum ≠ "" ∧
            (strContains fullAddress streetNum || strContains dealName streetNum) then
          s₀ + 5
        else s₀
      if cleanMatch.length > 25 then s₁ + 5 else s₁
    else 0
  let loanNumber := jsOrString deal.properties.loan_number ""
  let dealName := jsOrString deal.properties.dealname ""
  let fullAddress := jsOrString deal.properties.full_address ""
  let matchCount : Nat :=
    (if parsed.loanNumbers.any
        (fun ln => strContains (jsToLower loanNumber) (jsToLower ln)) then 1 else 0) +
    (if parsed.dealNames.any
        (fun dn => strContains (jsToLower dealName) (jsToLower dn)) then 1 else 0) +
    (if parsed.addresses.any
        (fun addr => strContains (jsToLower fullAddress) (jsToLower addr)) then 1 else 0)
  let total := if matchCount > 1 then base + (matchCount - 1) * 10 else base
  min total 100

-- ## The external world (HubSpot API oracles)

/-- Email record properties as fetched by `getEmail`. -/
structure EmailProps where
  hs_email_subject : Option String
  hs_email_text : Option String
  hs_email_html : Option String
  deriving DecidableEq, Repr

/-- Search/read/write oracles standing for the HubSpot API.  Each call that
can throw in JS is `Except String` (the string is `error.message`).  The
API key is fixed inside the world, matching how the source threads one
`apiKey` to every call.  `searchLoan` is `searchDealsByLoanNumber` (the
three-filter-group search); `searchField f v` is `searchDealsByField`;
`contactsOfEmail` / `dealsOfContact` return the association `toObjectId`
lists of the v4 association reads; `dealById` backs the batch-read
endpoint; `associate` is the association write (`PUT`, type 210). -/
structure World where
  getEmail : String → Except String EmailProps
  searchLoan : String → Except String (List Deal)
  searchField : String → String → Except String (List Deal)
  contactsOfEmail : String → Except String (List String)
  dealsOfContact : String → Except String (List String)
  dealById : String → Option Deal
  associate : String → String → Except String Unit

/-- One search issued by a `findMatch` channel (used to state which
channels ran). -/
inductive SearchCall where
  | loan (value : String)
  | byField (fieldName : String) (value : String)
  deriving DecidableEq, Repr

-- ## Matching orchestrator (`findMatch`)

/-- Channel 1 of `findMatch`: for each loan number search the store,
filter to the target stages, and return `targetDeals[0]` at confidence 100
on the first non-empty filtered result.  The accumulated `trace` records
every search issued so far. -/
def loanNumberChannel (w : World) :
    List String → List SearchCall →
    Except String (Option MatchResult × List SearchCall)
  | [], trace => .ok (none, trace)
  | ln :: rest, trace =>
    match w.searchLoan ln with
    | .error e => .error e
    | .ok deals =>
      match deals.filter isTargetStage with
      | d :: _ => .ok (some ⟨d, 100, "loan_number"⟩, trace ++ [.loan ln])
      | [] => loanNumberChannel w rest (trace ++ [.loan ln])

/-- Channel 2 of `findMatch`: search each cleaned deal-name fragment by
`dealname`, falling back to `full_address` when empty; pool candidates. -/
def dealNameChannel (w : World) :
    List String → List Candidate → List SearchCall →
    Except String (List Candidate × List SearchCall)
  | [], acc, trace => .ok (acc, trace)
  | name :: rest, acc, trace =>
    let cleanName := cleanSearchValue name
    if cleanName = "" ∨ cleanName.length < 3 then dealNameChannel w rest acc trace
    else
      match w.searchField "dealname" cleanName with
      | .error e => .error e
      | .ok deals₁ =>
        if deals₁.length = 0 then
          match w.searchField "full_address" cleanName with
          | .error e => .error e
          | .ok deals₂ =>
            dealNameChannel w rest
              (acc ++ deals₂.map (fun d => ⟨d, "deal_name", cleanName⟩))
              (trace ++ [.byField "dealname" cleanName, .byField "full_address" cleanName])
        else
          dealNameChannel w rest
            (acc ++ deals₁.map (fun d => ⟨d, "deal_name", cleanName⟩))
            (trace ++ [.byField "dealname" cleanName])

/-- Channel 3 of `findMatch`: search each cleaned address (reduced to its
street core) by `full_address`, falling back to `dealname` when empty;
pool candidates.  Note the candidate's `matchValue` is the *raw* address. -/
def addressChannel (w : World) :
    List String → List Candidate → List SearchCall →
    Except String (List Candidate × List SearchCall)
  | [], acc, trace => .ok (acc, trace)
  | addr :: rest, acc, trace =>
    let cleanAddr := cleanSearchValue addr
    if cleanAddr = "" ∨ cleanAddr.length < 5 then addressChannel w rest acc trace
    else
      let streetPart := extractStreetCore cleanAddr
      let searchVal := if streetPart = "" then cleanAddr else streetPart
      match w.searchField "full_address" searchVal with
      | .error e => .error e
      | .ok deals₁ =>
        if deals₁.length = 0 then
          match w.searchField "dealname" searchVal with
          | .error e => .error e
          | .ok deals₂ =>
            addressChannel w rest
              (acc ++ deals₂.map (fun d => ⟨d, "address", addr⟩))
              (trace ++ [.byField "full_address" searchVal, .byField "dealname" searchVal])
        else
          addressChannel w rest
            (acc ++ deals₁.map (fun d => ⟨d, "address", addr⟩))
            (trace ++ [.byField "full_address" searchVal])

/-- Stable insert for the descending-score sort. -/
def insertByScoreDesc (c : ScoredCandidate) :
    List ScoredCandidate → List ScoredCandidate
  | [] => [c]
  | d :: rest =>
    if d.score < c.score then c :: d :: rest else d :: insertByScoreDesc c rest

/-- Stable sort by descending score — observationally identical to the
source's `sort((a, b) => b.score - a.score)` (ES2019 sorts are stable). -/
def sortByScoreDesc : List ScoredCandidate → List ScoredCandidate
  | [] => []
  | c :: rest => insertByScoreDesc c (sortByScoreDesc rest)

/-- `findMatch(apiKey, parsed)` from the source.  Besides the result it
returns the list of channel searches issued, in order.  (The guards
`parsed.xs.length > 0` around each loop are omitted: iterating an empty
list is already a no-op.) -/
def findMatch (w : World) (parsed : ParsedIdentifiers) :
    Except String (Option MatchResult × List SearchCall) :=
  match loanNumberChannel w parsed.loanNumbers [] with
  | .error e => .error e
  | .ok (some m, trace) => .ok (some m, trace)
  | .ok (none, trace₀) =>
    match dealNameChannel w parsed.dealNames [] trace₀ with
    | .error e => .error e
    | .ok (cands₁, trace₁) =>
      match addressChannel w parsed.addresses cands₁ trace₁ with
      | .error e => .error e
      | .ok (cands, trace) =>
        let scored := (cands.filter (fun c => isTargetStage c.deal)).map
          (fun c => ScoredCandidate.mk c.deal c.matchType c.matchValue
            (scoreMatch c.matchType c.matchValue c.deal parsed))
        match sortByScoreDesc scored with
        | top :: _ =>
          if top.score ≥ CONFIDENCE_THRESHOLD then
            .ok (some ⟨top.deal, top.score, top.matchType⟩, trace)
          else .ok (none, trace)
        | [] => .ok (none, trace)

-- ## Fallback resolver

/-- `getEmailContactAssociations`: a thrown error whose message contains
`"404"` normalizes to an empty list; any other error propagates. -/
def getEmailContactAssocs (w : World) (emailId : String) :
    Except String (List String) :=
  match w.contactsOfEmail emailId with
  | .ok ids => .ok ids
  | .error msg => if strContains msg "404" then .ok [] else .error msg

/-- `getContactDealAssociations`: same 404-normalizing wrapper. -/
def getContactDealAssocs (w : World) (contactId : String) :
    Except String (List String) :=
  match w.dealsOfContact contactId with
  | .ok ids => .ok ids
  | .error msg => if strContains msg "404" then .ok [] else .error msg

/-- `batchGetDeals`: batch read, returning the records found. -/
def batchGetDeals (w : World) (dealIds : List String) : List Deal :=
  dealIds.filterMap w.dealById

/-- The contact loop of `fallbackSingleContactDeal`: the first contact
with exactly one associated deal (whose record the batch read returns)
yields the match; others are skipped.  A thrown (non-404) lookup error
propagates out of the loop. -/
def fallbackLoop (w : World) : List String → Except String (Option MatchResult)
  | [] => .ok none
  | contactId :: rest =>
    match getContactDealAssocs w contactId with
    | .error e => .error e
    | .ok dealAssocs =>
      if h : dealAssocs.length = 1 then
        match batchGetDeals w [dealAssocs.head (by
            intro hnil
            simp [hnil] at h)] with
        | [d] => .ok (some ⟨d, 100, "single_contact_deal"⟩)
        | _ => fallbackLoop w rest
      else fallbackLoop w rest

/-- `fallbackSingleContactDeal(apiKey, emailId)` from the source: the
whole body is wrapped in `try/catch`, so any propagated error yields
`null` (no match). -/
def fallbackSingleContactDeal (w : World) (emailId : String) :
    Option MatchResult :=
  match getEmailContactAssocs w emailId with
  | .error _ => none
  | .ok contactAssocs =>
    if contactAssocs.length = 0 then none
    else
      match fallbackLoop w contactAssocs with
      | .ok r => r
      | .error _ => none


-- ## Webhook handler

/-- One inbound change-notification event.  `objectId` is modelled as the
string the source keys on (`String(evt.objectId)`); `propertyName` is
absent for non-property-change events. -/
structure WebhookEvent where
  objectTypeId : String
  subscriptionType : String
  propertyName : Option String
  objectId : String
  deriving DecidableEq, Repr

/-- The filter body of `uniqueEvents` (the type / subscription checks),
without the seen-set check. -/
def eventPasses (evt : WebhookEvent) : Bool :=
  if evt.objectTypeId ≠ "0-49" then false
  else if evt.subscriptionType = "object.propertyChange" ∧
      evt.propertyName ≠ some "hs_email_direction" then false
  else true

/-- `events.filter(...)` with the closed-over `seen` set: `seen` only
records identifiers of events that passed the type/subscription checks. -/
def filterEventsAux : List WebhookEvent → List String → List WebhookEvent
  | [], _ => []
  | evt :: rest, seen =>
    if evt.objectTypeId ≠ "0-49" then filterEventsAux rest seen
    else if evt.subscriptionType = "object.propertyChange" ∧
        evt.propertyName ≠ some "hs_email_direction" then filterEventsAux rest seen
    else if seen.contains evt.objectId then filterEventsAux rest seen
    else evt :: filterEventsAux rest (evt.objectId :: seen)

/-- The `uniqueEvents` computation of the handler. -/
def filterEvents (events : List WebhookEvent) : List WebhookEvent :=
  filterEventsAux events []

/-- One entry of the handler's `results` array. -/
structure EmailResult where
  emailId : String
  dealId : String
  dealName : Option String
  confidence : Nat
  matchType : String
  success : Bool
  deriving DecidableEq, Repr

/-- A performed association write (`associateEmailToDeal` invocation),
with the match that caused it. -/
structure AssocWrite where
  emailId : String
  dealId : String
  result : MatchResult
  deriving DecidableEq, Repr

/-- The `if (!match) match = await fallbackSingleContactDeal(...)` step:
keep the content match, otherwise consult the fallback resolver. -/
def resolveMatch (w : World) (emailId : String) (m₀ : Option MatchResult) :
    Option MatchResult :=
  match m₀ with
  | some r => some r
  | none => fallbackSingleContactDeal w emailId

/-- The per-email body of the handler loop (the interior of its
`try`): fetch the email, parse, `findMatch`, fall back, and on a match
write the association and build the result entry.  The pure text parser
(`parseEmail` and its extraction regexes) is passed as an explicit
function `parse`; every theorem below holds for all parsers.  The second
component lists the association writes issued (also when the write itself
then throws). -/
def processEmail (w : World) (parse : String → String → ParsedIdentifiers)
    (emailId : String) : Except String (Option EmailResult) × List AssocWrite :=
  match w.getEmail emailId with
  | .error e => (.error e, [])
  | .ok props =>
    let subject := jsOrString props.hs_email_subject ""
    let body := jsOrString props.hs_email_text (jsOrString props.hs_email_html "")
    let parsed := parse subject body
    match findMatch w parsed with
    | .error e => (.error e, [])
    | .ok (m₀, _) =>
      match resolveMatch w emailId m₀ with
      | none => (.ok none, [])
      | some r =>
        let write : AssocWrite := ⟨emailId, r.deal.id, r⟩
        match w.associate emailId r.deal.id with
        | .error e => (.error e, [write])
        | .ok _ =>
          (.ok (some ⟨emailId, r.deal.id, r.deal.properties.dealname,
            r.confidence, r.matchType, true⟩), [write])

/-- The handler's event loop: each email is processed inside its own
`try/catch`, so a failure only skips that email's result entry. -/
def handlerLoop (w : World) (parse : String → String → ParsedIdentifiers) :
    List WebhookEvent → List EmailResult × List AssocWrite
  | [] => ([], [])
  | evt :: rest =>
    let step := processEmail w parse evt.objectId
    let tail := handlerLoop w parse rest
    match step.1 with
    | .ok (some r) => (r :: tail.1, step.2 ++ tail.2)
    | .ok none => (tail.1, step.2 ++ tail.2)
    | .error _ => (tail.1, step.2 ++ tail.2)

/-- The handler's response body (the webhook transport serializes it). -/
inductive HandlerBody where
  | text (s : String)
  | success (processed : Nat) (results : List EmailResult)
  | jsonError (msg : String)
  deriving DecidableEq, Repr

structure HandlerResponse where
  statusCode : Nat
  body : HandlerBody
  deriving DecidableEq, Repr

/-- `handler(event)` from the source, for an already-parsed event batch
(the webhook transport and request-body JSON parsing are outside the
specified core).  `apiKey` is `process.env.HUBSPOT_API_KEY`
(`none` = unset).  Also returns every association write issued. -/
def handler (w : World) (parse : String → String → ParsedIdentifiers)
    (apiKey : Option String) (httpMethod : String)
    (events : List WebhookEvent) : HandlerResponse × List AssocWrite :=
  if httpMethod = "GET" then (⟨200, .text "Email sync webhook active"⟩, [])
  else if httpMethod = "POST" then
    match apiKey with
    | none => (⟨500, .jsonError "HUBSPOT_API_KEY not configured"⟩, [])
    | some _ =>
      let uniqueEvents := filterEvents events
      let out := handlerLoop w parse uniqueEvents
      (⟨200, .success out.1.length out.1⟩, out.2)
  else (⟨405, .text "Method not allowed"⟩, [])

-- ## Rate-limited request wrapper (`hubspotRequest`)

/-- One HTTP response of the fetch oracle.  `retryAfter` is the parsed
`retry-after` header (absent = `none`); `errMessage` is the `message`
field of the error body (`none` when the body has none or fails to
parse — the source then falls back to `statusText`). -/
structure HttpResponse where
  status : Nat
  retryAfter : Option Nat
  errMessage : Option String
  statusText : String
  deriving DecidableEq, Repr

/-- `response.ok` (status in 200–299). -/
def respOk (r : HttpResponse) : Bool := 200 ≤ r.status ∧ r.status ≤ 299

/-- The message of the `Error` thrown on a non-ok response:
`HubSpot API Error (status): message-or-statusText`. -/
def apiErrorMessage (r : HttpResponse) : String :=
  "HubSpot API Error (" ++ toString r.status ++ "): " ++
    jsOrString r.errMessage r.statusText

/-- Outcome of a `hubspotRequest` call: a returned body (opaque here) or
a thrown error with the response status it came from and its message. -/
inductive ReqOutcome where
  | success
  | failure (status : Nat) (msg : String)
  deriving DecidableEq, Repr

/-- Attempts issued and delays slept, in order, plus the outcome. -/
structure ReqTrace where
  attempts : Nat
  delays : List Nat
  outcome : ReqOutcome
  deriving DecidableEq, Repr

/-- The sleep before a 429 retry: the parsed `retry-after` header
(seconds × 1000) when present, else `(attempt + 1) × 1000` ms. -/
def retryDelay (r : HttpResponse) (attempt : Nat) : Nat :=
  match r.retryAfter with
  | some n => n * 1000
  | none => (attempt + 1) * 1000

/-- The body of `hubspotRequest`'s retry loop.  `responses i` is the
response the fetch oracle yields on attempt `i` (0-based).  `fuel`
is `retries + 1 - attempt`, making the recursion structural; the `fuel = 0`
case is unreachable from the top-level entry.  Branches, in source order:
a 429 with attempts left sleeps `retryDelay` and retries; a non-ok
response throws; the `catch` retries a thrown error whose message
contains `'secondly limit'` (with attempts left) after
`(attempt + 1) × 1000` ms, and rethrows otherwise. -/
def hubspotRequestAux (responses : Nat → HttpResponse) (retries : Nat) :
    Nat → Nat → Nat → List Nat → ReqTrace
  | _, 0, attempts, delays => ⟨attempts, delays, .failure 0 "loop exhausted"⟩
  | attempt, fuel + 1, attempts, delays =>
    if (responses attempt).status = 429 ∧ attempt < retries then
      hubspotRequestAux responses retries (attempt + 1) fuel (attempts + 1)
        (delays ++ [retryDelay (responses attempt) attempt])
    else if respOk (responses attempt) then ⟨attempts + 1, delays, .success⟩
    else if attempt < retries ∧
        strContains (apiErrorMessage (responses attempt)) "secondly limit" then
      hubspotRequestAux responses retries (attempt + 1) fuel (attempts + 1)
        (delays ++ [(attempt + 1) * 1000])
    else ⟨attempts + 1, delays,
      .failure (responses attempt).status (apiErrorMessage (responses attempt))⟩

/-- `hubspotRequest(apiKey, endpoint, options, retries)`: run the retry
loop from attempt 0. -/
def hubspotRequest (responses : Nat → HttpResponse) (retries : Nat) : ReqTrace :=
  hubspotRequestAux responses retries 0 (retries + 1) 0 []

/-- The default retry count of the source (`retries = 3`). -/
def defaultRetries : Nat := 3

-- ## Spec-side definitions (for refinement comparison)

/-- Spec §4.3 wording: deal-name base score — 85, raised to 90 when the
cleaned (lower-cased) fragment is a substring of the stored name, 95 when
case-insensitively equal. -/
def specDealNameBase (cleanFrag storedName : String) : Nat :=
  if jsToLower storedName = cleanFrag then 95
  else if strContains (jsToLower storedName) cleanFrag then 90
  else 85

/-- Spec §4.3 wording: +5 when the leading street number of the cleaned
fragment appears in the stored address or stored name (digits carry no
case). -/
def specLeadingNumberBonus (cleanFrag storedAddress storedName : String) : Nat :=
  let num := leadingDigits cleanFrag
  if num ≠ "" ∧ (strContains (jsToLower storedAddress) num ∨
      strContains (jsToLower storedName) num) then 5 else 0

/-- Spec §4.3 wording: address base score — 80, +5 for the leading street
number, +5 when the matched (cleaned) string exceeds 25 characters. -/
def specAddressBase (cleanFrag storedAddress storedName : String) : Nat :=
  80 + specLeadingNumberBonus cleanFrag storedAddress storedName +
    (if cleanFrag.length > 25 then 5 else 0)

/-- Spec §4.3 wording: the number of identifier types whose extracted
value occurs (case-insensitively) as a substring of the corresponding
stored field. -/
def specCorroboration (deal : Deal) (parsed : ParsedIdentifiers) : Nat :=
  (if parsed.loanNumbers.any (fun v =>
      strContains (jsToLower (jsOrString deal.properties.loan_number "")) (jsToLower v))
    then 1 else 0) +
  (if parsed.dealNames.any (fun v =>
      strContains (jsToLower (jsOrString deal.properties.dealname "")) (jsToLower v))
    then 1 else 0) +
  (if parsed.addresses.any (fun v =>
      strContains (jsToLower (jsOrString deal.properties.full_address "")) (jsToLower v))
    then 1 else 0)

/-- Spec §4.3 as a formula: channel base score, plus 10 points per
corroborating identifier type beyond the first, capped at 100. -/
def scoreMatchSpec (matchType matchValue : String) (deal : Deal)
    (parsed : ParsedIdentifiers) : Nat :=
  let cleanFrag := jsToLower (jsTrim (takeBeforeChar '\n' matchValue))
  let base :=
    if matchType = "deal_name" then
      specDealNameBase cleanFrag (jsOrString deal.properties.dealname "")
    else
      specAddressBase cleanFrag (jsOrString deal.properties.full_address "")
        (jsOrString deal.properties.dealname "")
  min 100 (base + 10 * (specCorroboration deal parsed - 1))

/-- Spec §6 wording for de-duplication: keep the first event bearing each
object identifier, drop the rest. -/
def keepFirstById : List WebhookEvent → List WebhookEvent
  | [] => []
  | e :: rest =>
    e :: keepFirstById (rest.filter (fun e2 => e2.objectId ≠ e.objectId))
termination_by l => l.length
decreasing_by
  simp only [List.length_cons]
  exact Nat.lt_succ_of_le (rest.length_filter_le _)

/-- The handler records a result entry exactly when the per-email step
succeeded with a match. -/
def resultOfProcess (p : Except String (Option EmailResult) × List AssocWrite) :
    Option EmailResult :=
  match p.1 with
  | .ok (some r) => some r
  | _ => none

-- ## Lemmas about the loan-number channel

/-- Loan numbers whose filtered search result is empty are skipped, each
leaving one loan search in the trace. -/
lemma loanNumberChannel_skip (w : World) (pre : List String) :
    ∀ (rest : List String) (trace : List SearchCall),
    (∀ ln' ∈ pre, ∃ ds', w.searchLoan ln' = .ok ds' ∧ ds'.filter isTargetStage = []) →
    loanNumberChannel w (pre ++ rest) trace
      = loanNumberChannel w rest (trace ++ pre.map SearchCall.loan) := by
  induction pre with
  | nil => intro rest trace _; simp
  | cons ln pre ih =>
    intro rest trace h
    obtain ⟨ds', hds', hfil⟩ := h ln (by simp)
    have hrest : ∀ ln' ∈ pre, ∃ ds', w.searchLoan ln' = .ok ds' ∧
        ds'.filter isTargetStage = [] := fun ln' hln' => h ln' (by simp [hln'])
    simp only [List.cons_append, loanNumberChannel, hds', hfil, List.append_eq]
    rw [ih rest (trace ++ [SearchCall.loan ln]) hrest]
    simp

/-- A successful loan-channel result has confidence 100, matchType
`loan_number`, and a deal in the allowed stage set. -/
lemma loanNumberChannel_some (w : World) :
    ∀ (lns : List String) (trace tr : List SearchCall) (m : MatchResult),
    loanNumberChannel w lns trace = .ok (some m, tr) →
    m.confidence = 100 ∧ m.matchType = "loan_number" ∧ isTargetStage m.deal = true := by
  intro lns
  induction lns with
  | nil => intro trace tr m h; simp [loanNumberChannel] at h
  | cons ln rest ih =>
    intro trace tr m h
    unfold loanNumberChannel at h
    split at h
    · exact absurd h (by simp)
    · next deals hsl =>
      split at h
      · next d tl heq =>
        simp only [Except.ok.injEq, Prod.mk.injEq, Option.some.injEq] at h
        have hd : isTargetStage d = true := by
          have hmem : d ∈ List.filter isTargetStage deals := by
            rw [heq]; exact List.mem_cons_self d tl
          exact List.of_mem_filter hmem
        rw [← h.1]
        exact ⟨rfl, rfl, hd⟩
      · exact ih _ _ _ h

-- ## Lemmas about the candidate sort

lemma mem_insertByScoreDesc {x c : ScoredCandidate} :
    ∀ {l : List ScoredCandidate}, x ∈ insertByScoreDesc c l → x = c ∨ x ∈ l := by
  intro l
  induction l with
  | nil => intro h; simp [insertByScoreDesc] at h; exact Or.inl h
  | cons d rest ih =>
    intro h
    simp only [insertByScoreDesc] at h
    by_cases hc : d.score < c.score
    · rw [if_pos hc] at h
      rcases List.mem_cons.mp h with h1 | h2
      · exact Or.inl h1
      · exact Or.inr h2
    · rw [if_neg hc] at h
      rcases List.mem_cons.mp h with h1 | h2
      · exact Or.inr (by simp [h1])
      · rcases ih h2 with h3 | h4
        · exact Or.inl h3
        · exact Or.inr (List.mem_cons_of_mem d h4)

lemma mem_sortByScoreDesc {x : ScoredCandidate} :
    ∀ {l : List ScoredCandidate}, x ∈ sortByScoreDesc l → x ∈ l := by
  intro l
  induction l with
  | nil => intro h; simp [sortByScoreDesc] at h
  | cons c rest ih =>
    intro h
    simp only [sortByScoreDesc] at h
    rcases mem_insertByScoreDesc h with h1 | h2
    · simp [h1]
    · exact List.mem_cons_of_mem c (ih h2)

-- ## Lemmas about `findMatch`

/-- Any winning match is either a loan-number channel result (confidence
100) or a scored candidate that met the threshold; either way its deal is
in the allowed stage set. -/
lemma findMatch_some (w : World) (parsed : ParsedIdentifiers)
    (m : MatchResult) (tr : List SearchCall)
    (h : findMatch w parsed = .ok (some m, tr)) :
    ((m.confidence = 100 ∧ m.matchType = "loan_number") ∨
      m.confidence ≥ CONFIDENCE_THRESHOLD) ∧ isTargetStage m.deal = true := by
  unfold findMatch at h
  split at h
  · exact absurd h (by simp)
  · next m₀ tr₀ hl =>
    simp only [Except.ok.injEq, Prod.mk.injEq, Option.some.injEq] at h
    obtain ⟨hm, htr⟩ := h
    obtain ⟨h100, htype, hstage⟩ := loanNumberChannel_some w _ _ _ _ hl
    subst hm
    exact ⟨Or.inl ⟨h100, htype⟩, hstage⟩
  · next tr₀ hl =>
    split at h
    · exact absurd h (by simp)
    · next cands₁ tr₁ hd =>
      split at h
      · exact absurd h (by simp)
      · next cands tr₂ ha =>
        dsimp only at h
        split at h
        · next top tl hsorted =>
          split at h
          · next hth =>
            simp only [Except.ok.injEq, Prod.mk.injEq, Option.some.injEq] at h
            obtain ⟨hm, htr⟩ := h
            have htop : top ∈ sortByScoreDesc ((cands.filter
                (fun c => isTargetStage c.deal)).map
                (fun c => ScoredCandidate.mk c.deal c.matchType c.matchValue
                  (scoreMatch c.matchType c.matchValue c.deal parsed))) := by
              rw [hsorted]; exact List.mem_cons_self top tl
            obtain ⟨c, hc, hceq⟩ := List.mem_map.mp (mem_sortByScoreDesc htop)
            have hstage : isTargetStage c.deal = true :=
              List.of_mem_filter (p := fun x : Candidate => isTargetStage x.deal) hc
            rw [← hm]
            refine ⟨Or.inr hth, ?_⟩
            have : top.deal = c.deal := by rw [← hceq]
            simpa [this] using hstage
          · exact absurd h (by simp)
        · exact absurd h (by simp)

-- ## Lemmas about the fallback resolver

/-- Contacts whose (wrapped) deal lookup yields a list of length ≠ 1 are
skipped by the fallback loop. -/
lemma fallbackLoop_skip (w : World) (pre : List String) :
    ∀ (rest : List String),
    (∀ c' ∈ pre, ∃ ids, getContactDealAssocs w c' = .ok ids ∧ ids.length ≠ 1) →
    fallbackLoop w (pre ++ rest) = fallbackLoop w rest := by
  induction pre with
  | nil => intro rest _; simp
  | cons c pre ih =>
    intro rest h
    obtain ⟨ids, hids, hlen⟩ := h c (by simp)
    have hrest : ∀ c' ∈ pre, ∃ ids, getContactDealAssocs w c' = .ok ids ∧
        ids.length ≠ 1 := fun c' hc' => h c' (by simp [hc'])
    simp only [List.cons_append, fallbackLoop, hids, List.append_eq]
    rw [dif_neg hlen]
    exact ih rest hrest

/-- A match produced by the fallback loop has confidence 100 and
matchType `single_contact_deal`. -/
lemma fallbackLoop_some (w : World) :
    ∀ (contacts : List String) (m : MatchResult),
    fallbackLoop w contacts = .ok (some m) →
    m.confidence = 100 ∧ m.matchType = "single_contact_deal" := by
  intro contacts
  induction contacts with
  | nil => intro m h; simp [fallbackLoop] at h
  | cons c rest ih =>
    intro m h
    unfold fallbackLoop at h
    split at h
    · exact absurd h (by simp)
    · split at h
      · split at h
        · next d heq =>
          simp only [Except.ok.injEq, Option.some.injEq] at h
          rw [← h]
          exact ⟨rfl, rfl⟩
        · exact ih _ h
      · exact ih _ h

/-- A match produced by `fallbackSingleContactDeal` has confidence 100
and matchType `single_contact_deal`. -/
lemma fallback_some (w : World) (emailId : String) (m : MatchResult)
    (h : fallbackSingleContactDeal w emailId = some m) :
    m.confidence = 100 ∧ m.matchType = "single_contact_deal" := by
  unfold fallbackSingleContactDeal at h
  split at h
  · exact absurd h (by simp)
  · split at h
    · exact absurd h (by simp)
    · split at h
      · next r heq => rw [h] at heq; exact fallbackLoop_some w _ m heq
      · exact absurd h (by simp)

-- ## Lemmas about `processEmail` and the handler loop

lemma resolveMatch_some (w : World) (emailId : String)
    (m₀ : Option MatchResult) (r : MatchResult)
    (h : resolveMatch w emailId m₀ = some r) :
    m₀ = some r ∨ (m₀ = none ∧ fallbackSingleContactDeal w emailId = some r) := by
  cases m₀ with
  | some r' => simp [resolveMatch] at h; simp [h]
  | none => exact Or.inr ⟨rfl, h⟩

/-- Every association write issued by `processEmail` satisfies the
acceptance invariant: threshold-meeting confidence, or a loan-number /
fallback match at confidence 100. -/
lemma processEmail_write (w : World) (parse : String → String → ParsedIdentifiers)
    (emailId : String) (wr : AssocWrite)
    (h : wr ∈ (processEmail w parse emailId).2) :
    wr.result.confidence ≥ CONFIDENCE_THRESHOLD ∨
      ((wr.result.matchType = "loan_number" ∨
        wr.result.matchType = "single_contact_deal") ∧ wr.result.confidence = 100) := by
  unfold processEmail at h
  split at h
  · exact absurd h (by simp)
  · dsimp only at h
    split at h
    · exact absurd h (by simp)
    · next m₀ tr hfm =>
      split at h
      · exact absurd h (by simp)
      · next r hres =>
        have hwr : wr.result = r := by
          split at h <;> simp_all
        rcases resolveMatch_some w emailId m₀ r hres with hcontent | ⟨_, hfb⟩
        · subst hcontent
          obtain ⟨hdisj, _⟩ := findMatch_some w _ r tr hfm
          rcases hdisj with ⟨h100, htype⟩ | hth
          · exact Or.inr ⟨Or.inl (hwr ▸ htype), hwr ▸ h100⟩
          · exact Or.inl (hwr ▸ hth)
        · obtain ⟨h100, htype⟩ := fallback_some w emailId r hfb
          exact Or.inr ⟨Or.inr (hwr ▸ htype), hwr ▸ h100⟩

lemma handlerLoop_write (w : World) (parse : String → String → ParsedIdentifiers) :
    ∀ (evts : List WebhookEvent) (wr : AssocWrite),
    wr ∈ (handlerLoop w parse evts).2 →
    ∃ evt ∈ evts, wr ∈ (processEmail w parse evt.objectId).2 := by
  intro evts
  induction evts with
  | nil => intro wr h; simp [handlerLoop] at h
  | cons evt rest ih =>
    intro wr h
    unfold handlerLoop at h
    dsimp only at h
    split at h <;>
    · simp only at h
      rcases List.mem_append.mp h with h1 | h2
      · exact ⟨evt, by simp, h1⟩
      · obtain ⟨evt', hevt', hwr'⟩ := ih wr h2
        exact ⟨evt', by simp [hevt'], hwr'⟩

-- ## Claim C1

/-- C1: for every parsed-identifier input with at least one extracted
loan number, if searching the store by some loan number returns a
non-empty result after filtering to the allowed stage set (here: the
first such loan number, earlier ones filtering to empty), then
`findMatch` returns that deal immediately with confidence 100 and
matchType `loan_number`, and the deal-name and address channels perform
no searches for that email (the trace holds loan searches only). -/
theorem c1_loan_number_short_circuit (w : World) (parsed : ParsedIdentifiers)
    (pre rest : List String) (ln : String) (ds tl : List Deal) (d : Deal)
    (hdecomp : parsed.loanNumbers = pre ++ ln :: rest)
    (hpre : ∀ ln' ∈ pre, ∃ ds', w.searchLoan ln' = .ok ds' ∧ ds'.filter isTargetStage = [])
    (hln : w.searchLoan ln = .ok ds)
    (hfilter : ds.filter isTargetStage = d :: tl) :
    ∃ trace, findMatch w parsed = .ok (some ⟨d, 100, "loan_number"⟩, trace) ∧
      ∀ c ∈ trace, ∃ v, c = SearchCall.loan v := by
  have hloan : loanNumberChannel w parsed.loanNumbers [] =
      .ok (some ⟨d, 100, "loan_number"⟩,
        pre.map SearchCall.loan ++ [SearchCall.loan ln]) := by
    rw [hdecomp, loanNumberChannel_skip w pre (ln :: rest) [] hpre]
    simp only [List.nil_append, loanNumberChannel, hln, hfilter]
  refine ⟨pre.map SearchCall.loan ++ [SearchCall.loan ln], ?_, ?_⟩
  · unfold findMatch
    rw [hloan]
  · intro c hc
    rcases List.mem_append.mp hc with h1 | h2
    · obtain ⟨v, _, hv⟩ := List.mem_map.mp h1
      exact ⟨v, hv.symm⟩
    · simp only [List.mem_singleton] at h2
      exact ⟨ln, h2⟩

def c1Deal : Deal :=
  ⟨"D100", ⟨some "168 Las Palmas", some "BF-2024-0001",
    some "168 Las Palmas Ave, Mesa, AZ", some "closedwon"⟩⟩

def c1World : World :=
  { getEmail := fun _ => .ok ⟨none, none, none⟩
    searchLoan := fun _ => .ok [c1Deal]
    searchField := fun _ _ => .ok []
    contactsOfEmail := fun _ => .ok []
    dealsOfContact := fun _ => .ok []
    dealById := fun _ => none
    associate := fun _ _ => .ok () }

def c1Parsed : ParsedIdentifiers := ⟨["399536679"], [], []⟩

theorem c1_witness :
    ∃ trace, findMatch c1World c1Parsed =
      .ok (some ⟨c1Deal, 100, "loan_number"⟩, trace) ∧
      ∀ c ∈ trace, ∃ v, c = SearchCall.loan v :=
  c1_loan_number_short_circuit c1World c1Parsed [] [] "399536679" [c1Deal] []
    c1Deal rfl (by simp) rfl (by rfl)

-- ## Claim C2

/-- C2: an email-to-deal association is committed by the handler only
when the match's confidence meets `CONFIDENCE_THRESHOLD`, or the match
came from the loan-number channel / the fallback resolver, both fixed at
confidence 100. -/
theorem c2_commit_invariant (w : World)
    (parse : String → String → ParsedIdentifiers) (apiKey : Option String)
    (httpMethod : String) (events : List WebhookEvent) (wr : AssocWrite)
    (h : wr ∈ (handler w parse apiKey httpMethod events).2) :
    wr.result.confidence ≥ CONFIDENCE_THRESHOLD ∨
      ((wr.result.matchType = "loan_number" ∨
        wr.result.matchType = "single_contact_deal") ∧
        wr.result.confidence = 100) := by
  unfold handler at h
  split at h
  · exact absurd h (by simp)
  · split at h
    · split at h
      · exact absurd h (by simp)
      · dsimp only at h
        obtain ⟨evt, _, hwr⟩ := handlerLoop_write w parse _ wr h
        exact processEmail_write w parse _ wr hwr
    · exact absurd h (by simp)

def c2Deal : Deal :=
  ⟨"D200", ⟨some "21 Valley Rd", some "555123456",
    some "21 Valley Rd, Trenton, NJ", some "presentationscheduled"⟩⟩

def c2World : World :=
  { getEmail := fun _ => .ok ⟨some "Loan number 555123456", some "body", none⟩
    searchLoan := fun _ => .ok [c2Deal]
    searchField := fun _ _ => .ok []
    contactsOfEmail := fun _ => .ok []
    dealsOfContact := fun _ => .ok []
    dealById := fun _ => none
    associate := fun _ _ => .ok () }

def c2Parse : String → String → ParsedIdentifiers :=
  fun _ _ => ⟨["555123456"], [], []⟩

def c2Events : List WebhookEvent := [⟨"0-49", "object.creation", none, "E1"⟩]

def c2Write : AssocWrite := ⟨"E1", "D200", ⟨c2Deal, 100, "loan_number"⟩⟩

theorem c2_witness :
    c2Write.result.confidence ≥ CONFIDENCE_THRESHOLD ∨
      ((c2Write.result.matchType = "loan_number" ∨
        c2Write.result.matchType = "single_contact_deal") ∧
        c2Write.result.confidence = 100) :=
  c2_commit_invariant c2World c2Parse (some "key") "POST" c2Events c2Write
    (by decide)

-- ## Claim C3

/-- C3: no channel of `findMatch` ever returns, as the winning match, a
deal whose stage is outside the allowed stage set, regardless of textual
similarity. -/
theorem c3_stage_allow_list (w : World) (parsed : ParsedIdentifiers)
    (m : MatchResult) (tr : List SearchCall)
    (h : findMatch w parsed = .ok (some m, tr)) :
    isTargetStage m.deal = true :=
  (findMatch_some w parsed m tr h).2

def c3Deal : Deal :=
  ⟨"D300", ⟨some "708 Pallister", some "777000111",
    some "708 Pallister, Detroit, MI", some "4447566"⟩⟩

def c3World : World :=
  { getEmail := fun _ => .ok ⟨none, none, none⟩
    searchLoan := fun _ => .ok [c3Deal]
    searchField := fun _ _ => .ok []
    contactsOfEmail := fun _ => .ok []
    dealsOfContact := fun _ => .ok []
    dealById := fun _ => none
    associate := fun _ _ => .ok () }

def c3Parsed : ParsedIdentifiers := ⟨["777000111"], [], []⟩

theorem c3_witness : isTargetStage (⟨c3Deal, 100, "loan_number"⟩ : MatchResult).deal = true :=
  c3_stage_allow_list c3World c3Parsed ⟨c3Deal, 100, "loan_number"⟩
    [SearchCall.loan "777000111"] (by rfl)

-- ## Claim C4 (corrected)

def c4DealB : Deal :=
  ⟨"D401", ⟨some "55 Birch Ln", some "880012345",
    some "55 Birch Ln, Akron, OH", some "closedwon"⟩⟩

/-- Contact `C1` fails its deal lookup with a non-404 error; contact `C2`
has exactly one deal, present in the store. -/
def c4World : World :=
  { getEmail := fun _ => .ok ⟨none, none, none⟩
    searchLoan := fun _ => .ok []
    searchField := fun _ _ => .ok []
    contactsOfEmail := fun _ => .ok ["C1", "C2"]
    dealsOfContact := fun c =>
      if c = "C1" then .error "Network failure" else .ok ["D401"]
    dealById := fun i => if i = "D401" then some c4DealB else none
    associate := fun _ _ => .ok () }

/-- Same store, except contact `C1`'s lookup succeeds with no deals. -/
def c4WorldOk : World :=
  { getEmail := fun _ => .ok ⟨none, none, none⟩
    searchLoan := fun _ => .ok []
    searchField := fun _ _ => .ok []
    contactsOfEmail := fun _ => .ok ["C1", "C2"]
    dealsOfContact := fun c => if c = "C1" then .ok [] else .ok ["D401"]
    dealById := fun i => if i = "D401" then some c4DealB else none
    associate := fun _ _ => .ok () }

/-- C4 counterexample: a non-404 lookup failure for the first contact
makes the resolver return no match, although the next contact has exactly
one deal — so evaluation does NOT continue with the next contact (had the
failing lookup merely returned no deals, the next contact would have
matched). -/
theorem c4_counterexample :
    fallbackSingleContactDeal c4World "E4" = none ∧
    fallbackSingleContactDeal c4WorldOk "E4" =
      some ⟨c4DealB, 100, "single_contact_deal"⟩ ∧
    c4World.dealsOfContact "C1" = .error "Network failure" ∧
    strContains "Network failure" "404" = false := by
  refine ⟨by rfl, by rfl, by rfl, by rfl⟩

/-- C4 amended: a deal-lookup failure whose message marks a missing
association (contains `"404"`) normalizes to an empty deal list and
evaluation continues with the next contact; any other lookup failure is
caught (and logged) at the resolver boundary, so the resolver returns no
match without evaluating the remaining contacts. -/
theorem c4_failure_aborts_resolver :
    (∀ (w : World) (emailId : String) (contacts : List String)
      (pre : List String) (c : String) (post : List String) (msg : String),
      getEmailContactAssocs w emailId = .ok contacts →
      contacts = pre ++ c :: post →
      (∀ c' ∈ pre, ∃ ids, getContactDealAssocs w c' = .ok ids ∧ ids.length ≠ 1) →
      w.dealsOfContact c = .error msg →
      strContains msg "404" = false →
      fallbackSingleContactDeal w emailId = none) ∧
    (∀ (w : World) (c : String) (rest : List String) (msg : String),
      w.dealsOfContact c = .error msg →
      strContains msg "404" = true →
      fallbackLoop w (c :: rest) = fallbackLoop w rest) := by
  constructor
  · intro w emailId contacts pre c post msg hc hdecomp hpre hfail h404
    have hne : contacts.length ≠ 0 := by simp [hdecomp]
    have hwrap : getContactDealAssocs w c = .error msg := by
      unfold getContactDealAssocs
      simp [hfail, h404]
    have hloop : fallbackLoop w contacts = .error msg := by
      rw [hdecomp, fallbackLoop_skip w pre (c :: post) hpre]
      unfold fallbackLoop
      rw [hwrap]
    unfold fallbackSingleContactDeal
    rw [hc]
    simp only [if_neg hne, hloop]
  · intro w c rest msg hfail h404
    have hwrap : getContactDealAssocs w c = .ok [] := by
      unfold getContactDealAssocs
      simp [hfail, h404]
    refine fallbackLoop_skip w [c] rest ?_
    intro c' hc'
    simp only [List.mem_singleton] at hc'
    subst hc'
    exact ⟨[], hwrap, by simp⟩

def c4WitWorld : World :=
  { getEmail := fun _ => .ok ⟨none, none, none⟩
    searchLoan := fun _ => .ok []
    searchField := fun _ _ => .ok []
    contactsOfEmail := fun _ => .ok ["C9"]
    dealsOfContact := fun _ => .error "HubSpot API Error (500): boom"
    dealById := fun _ => none
    associate := fun _ _ => .ok () }

def c4WitWorld404 : World :=
  { getEmail := fun _ => .ok ⟨none, none, none⟩
    searchLoan := fun _ => .ok []
    searchField := fun _ _ => .ok []
    contactsOfEmail := fun _ => .ok ["C9"]
    dealsOfContact := fun _ => .error "HubSpot API Error (404): not found"
    dealById := fun _ => none
    associate := fun _ _ => .ok () }

theorem c4_witness :
    fallbackSingleContactDeal c4WitWorld "E4" = none ∧
    fallbackLoop c4WitWorld404 ["C9"] = fallbackLoop c4WitWorld404 [] :=
  ⟨(c4_failure_aborts_resolver).1 c4WitWorld "E4" ["C9"] [] "C9" []
      "HubSpot API Error (500): boom" (by rfl) rfl (by simp) rfl (by rfl),
    (c4_failure_aborts_resolver).2 c4WitWorld404 "C9" []
      "HubSpot API Error (404): not found" rfl (by rfl)⟩

-- ## Shared lemma: a first qualifying contact yields the fallback match

/-- If every earlier contact is skipped (deal list of length ≠ 1) and
contact `c` has exactly one associated deal whose record the store
returns, the resolver yields that deal at confidence 100. -/
lemma fallback_hit (w : World) (emailId : String)
    (contacts pre : List String) (c : String) (post : List String)
    (did : String) (deal : Deal)
    (hc : getEmailContactAssocs w emailId = .ok contacts)
    (hdecomp : contacts = pre ++ c :: post)
    (hpre : ∀ c' ∈ pre, ∃ ids, getContactDealAssocs w c' = .ok ids ∧ ids.length ≠ 1)
    (hcdeal : getContactDealAssocs w c = .ok [did])
    (hdeal : w.dealById did = some deal) :
    fallbackSingleContactDeal w emailId = some ⟨deal, 100, "single_contact_deal"⟩ := by
  have hne : contacts.length ≠ 0 := by simp [hdecomp]
  have hloop : fallbackLoop w contacts =
      .ok (some ⟨deal, 100, "single_contact_deal"⟩) := by
    rw [hdecomp, fallbackLoop_skip w pre (c :: post) hpre]
    unfold fallbackLoop
    simp [hcdeal, batchGetDeals, hdeal]
  unfold fallbackSingleContactDeal
  rw [hc]
  simp only [if_neg hne, hloop]

-- ## Claim C5

/-- C5: the fallback resolver walks the email's contacts in association
order; the first contact with exactly one associated deal (whose record
the store returns) yields that deal at confidence 100, matchType
`single_contact_deal`; contacts with zero or several deals are skipped;
when no contact qualifies the resolver returns no match. -/
theorem c5_fallback_first_single_deal_contact :
    (∀ (w : World) (emailId : String) (contacts pre : List String)
      (c : String) (post : List String) (did : String) (deal : Deal),
      getEmailContactAssocs w emailId = .ok contacts →
      contacts = pre ++ c :: post →
      (∀ c' ∈ pre, ∃ ids, getContactDealAssocs w c' = .ok ids ∧ ids.length ≠ 1) →
      getContactDealAssocs w c = .ok [did] →
      w.dealById did = some deal →
      fallbackSingleContactDeal w emailId =
        some ⟨deal, 100, "single_contact_deal"⟩) ∧
    (∀ (w : World) (emailId : String) (contacts : List String),
      getEmailContactAssocs w emailId = .ok contacts →
      (∀ c' ∈ contacts, ∃ ids, getContactDealAssocs w c' = .ok ids ∧ ids.length ≠ 1) →
      fallbackSingleContactDeal w emailId = none) := by
  constructor
  · intro w emailId contacts pre c post did deal hc hdecomp hpre hcdeal hdeal
    exact fallback_hit w emailId contacts pre c post did deal hc hdecomp hpre hcdeal hdeal
  · intro w emailId contacts hc hall
    have hloop : fallbackLoop w contacts = .ok none := by
      have h := fallbackLoop_skip w contacts [] hall
      simpa [fallbackLoop] using h
    unfold fallbackSingleContactDeal
    rw [hc]
    by_cases hz : contacts.length = 0
    · simp [hz]
    · simp only [if_neg hz, hloop]

def c5Deal : Deal :=
  ⟨"D501", ⟨some "9 Oak Ct", some "660990011",
    some "9 Oak Ct, Reno, NV", some "1067972413"⟩⟩

/-- Contact `CA` has two deals (ambiguous, skipped); contact `CB` has
exactly one. -/
def c5World : World :=
  { getEmail := fun _ => .ok ⟨none, none, none⟩
    searchLoan := fun _ => .ok []
    searchField := fun _ _ => .ok []
    contactsOfEmail := fun _ => .ok ["CA", "CB"]
    dealsOfContact := fun c =>
      if c = "CA" then .ok ["X1", "X2"] else .ok ["D501"]
    dealById := fun i => if i = "D501" then some c5Deal else none
    associate := fun _ _ => .ok () }

/-- Every contact is ambiguous (two deals each). -/
def c5WorldNone : World :=
  { getEmail := fun _ => .ok ⟨none, none, none⟩
    searchLoan := fun _ => .ok []
    searchField := fun _ _ => .ok []
    contactsOfEmail := fun _ => .ok ["CA", "CB"]
    dealsOfContact := fun _ => .ok ["X1", "X2"]
    dealById := fun _ => none
    associate := fun _ _ => .ok () }

theorem c5_witness :
    fallbackSingleContactDeal c5World "E5" =
      some ⟨c5Deal, 100, "single_contact_deal"⟩ ∧
    fallbackSingleContactDeal c5WorldNone "E5" = none :=
  ⟨(c5_fallback_first_single_deal_contact).1 c5World "E5" ["CA", "CB"] ["CA"]
      "CB" [] "D501" c5Deal (by rfl) rfl
      (by intro c' hc'
          simp only [List.mem_singleton] at hc'
          subst hc'
          exact ⟨["X1", "X2"], by rfl, by simp⟩)
      (by rfl) (by rfl),
    (c5_fallback_first_single_deal_contact).2 c5WorldNone "E5" ["CA", "CB"]
      (by rfl)
      (by intro c' _
          exact ⟨["X1", "X2"], by rfl, by simp⟩)⟩

-- ## Claim C10

/-- C10: the fallback resolver never consults the allowed stage set — a
first qualifying contact's sole deal is returned at confidence 100 even
when its stage is outside `TARGET_STAGE_VALUES`, and the handler then
commits the association (the per-email step issues the write, and a
single-event batch through the handler issues it too).  The stage
allow-list therefore constrains only the content channels of
`findMatch`. -/
theorem c10_fallback_ignores_stage (w : World)
    (parse : String → String → ParsedIdentifiers) (k emailId : String)
    (props : EmailProps) (contacts pre : List String) (c : String)
    (post : List String) (did : String) (deal : Deal) (tr : List SearchCall)
    (hmail : w.getEmail emailId = .ok props)
    (hfm : findMatch w (parse (jsOrString props.hs_email_subject "")
        (jsOrString props.hs_email_text (jsOrString props.hs_email_html "")))
      = .ok (none, tr))
    (hc : getEmailContactAssocs w emailId = .ok contacts)
    (hdecomp : contacts = pre ++ c :: post)
    (hpre : ∀ c' ∈ pre, ∃ ids, getContactDealAssocs w c' = .ok ids ∧ ids.length ≠ 1)
    (hcdeal : getContactDealAssocs w c = .ok [did])
    (hdeal : w.dealById did = some deal)
    (hstage : isTargetStage deal = false)
    (hassoc : w.associate emailId deal.id = .ok ()) :
    fallbackSingleContactDeal w emailId = some ⟨deal, 100, "single_contact_deal"⟩ ∧
    (processEmail w parse emailId).2 =
      [⟨emailId, deal.id, ⟨deal, 100, "single_contact_deal"⟩⟩] ∧
    (handler w parse (some k) "POST" [⟨"0-49", "object.creation", none, emailId⟩]).2 =
      [⟨emailId, deal.id, ⟨deal, 100, "single_contact_deal"⟩⟩] := by
  have hfb : fallbackSingleContactDeal w emailId =
      some ⟨deal, 100, "single_contact_deal"⟩ :=
    fallback_hit w emailId contacts pre c post did deal hc hdecomp hpre hcdeal hdeal
  have hfull : processEmail w parse emailId =
      (.ok (some ⟨emailId, deal.id, deal.properties.dealname, 100,
        "single_contact_deal", true⟩),
       [⟨emailId, deal.id, ⟨deal, 100, "single_contact_deal"⟩⟩]) := by
    unfold processEmail
    rw [hmail]
    dsimp only
    rw [hfm]
    simp only [resolveMatch, hfb, hassoc]
  refine ⟨hfb, by rw [hfull], ?_⟩
  have hfilter : filterEvents [⟨"0-49", "object.creation", none, emailId⟩] =
      [⟨"0-49", "object.creation", none, emailId⟩] := by
    simp [filterEvents, filterEventsAux]
  unfold handler
  rw [if_neg (by decide : ¬ ("POST" = "GET")), if_pos rfl]
  dsimp only
  rw [hfilter]
  unfold handlerLoop
  rw [hfull]
  simp [handlerLoop]

def c10Deal : Deal :=
  ⟨"D901", ⟨some "3 Elm St", some "110022003",
    some "3 Elm St, Boise, ID", some "appointmentscheduled"⟩⟩

/-- The sole contact has exactly one deal, whose stage
`appointmentscheduled` is outside the allowed stage set. -/
def c10World : World :=
  { getEmail := fun _ => .ok ⟨some "hello", some "world", none⟩
    searchLoan := fun _ => .ok []
    searchField := fun _ _ => .ok []
    contactsOfEmail := fun _ => .ok ["C7"]
    dealsOfContact := fun _ => .ok ["D901"]
    dealById := fun i => if i = "D901" then some c10Deal else none
    associate := fun _ _ => .ok () }

def c10Parse : String → String → ParsedIdentifiers := fun _ _ => ⟨[], [], []⟩

theorem c10_witness :
    fallbackSingleContactDeal c10World "E10" =
      some ⟨c10Deal, 100, "single_contact_deal"⟩ ∧
    (processEmail c10World c10Parse "E10").2 =
      [⟨"E10", "D901", ⟨c10Deal, 100, "single_contact_deal"⟩⟩] ∧
    (handler c10World c10Parse (some "key") "POST"
        [⟨"0-49", "object.creation", none, "E10"⟩]).2 =
      [⟨"E10", "D901", ⟨c10Deal, 100, "single_contact_deal"⟩⟩] :=
  c10_fallback_ignores_stage c10World c10Parse "key" "E10"
    ⟨some "hello", some "world", none⟩ ["C7"] [] "C7" [] "D901" c10Deal []
    (by rfl) (by rfl) (by rfl) rfl (by simp) (by rfl) (by rfl) (by rfl) (by rfl)

-- ## Lemmas about the retry loop

lemma hubspotRequestAux_all429 (responses : Nat → HttpResponse) (retries : Nat) :
    ∀ (k attempt attempts : Nat) (delays : List Nat),
    attempt + k = retries →
    (∀ i, attempt ≤ i → i ≤ retries → (responses i).status = 429) →
    hubspotRequestAux responses retries attempt (k + 1) attempts delays =
      ⟨attempts + (k + 1),
       delays ++ (List.range' attempt k).map (fun i => retryDelay (responses i) i),
       .failure 429 (apiErrorMessage (responses retries))⟩ := by
  intro k
  induction k with
  | zero =>
    intro attempt attempts delays hk hall
    have ha : attempt = retries := by omega
    subst ha
    have h429 : (responses attempt).status = 429 := hall attempt le_rfl le_rfl
    unfold hubspotRequestAux
    rw [if_neg (by intro hcon; exact absurd hcon.2 (lt_irrefl attempt))]
    rw [if_neg (by simp [respOk, h429])]
    rw [if_neg (by intro hcon; exact absurd hcon.1 (lt_irrefl attempt))]
    simp [h429]
  | succ k ih =>
    intro attempt attempts delays hk hall
    have hlt : attempt < retries := by omega
    have h429 : (responses attempt).status = 429 :=
      hall attempt le_rfl (by omega)
    unfold hubspotRequestAux
    rw [if_pos ⟨h429, hlt⟩]
    rw [ih (attempt + 1) (attempts + 1)
      (delays ++ [retryDelay (responses attempt) attempt]) (by omega)
      (fun i h1 h2 => hall i (by omega) h2)]
    simp only [ReqTrace.mk.injEq]
    refine ⟨by omega, ?_, trivial⟩
    rw [List.range'_succ, List.map_cons, List.append_assoc]
    rfl

-- ## Claim C6 (corrected)

def c6Response : HttpResponse :=
  ⟨400, none, some "You have reached your secondly limit.", "Bad Request"⟩

/-- C6 counterexample: a 400 response whose error message contains
`'secondly limit'` is NOT raised without retry — the `catch` clause
retries it with linear backoff until attempts run out (4 total attempts
at the default retry count), refuting "any other non-success response
raises an API failure ... without being retried". -/
theorem c6_counterexample :
    hubspotRequest (fun _ => c6Response) defaultRetries =
      ⟨4, [1000, 2000, 3000],
       .failure 400 "HubSpot API Error (400): You have reached your secondly limit."⟩ ∧
    c6Response.status ≠ 429 ∧ respOk c6Response = false := by
  refine ⟨by rfl, by decide, by rfl⟩

/-- C6 amended: if every attempt receives a 429, the client issues
exactly `retries + 1` attempts, sleeping the server `retry-after` hint
(× 1000 ms) when present and otherwise `(attempt + 1) × 1000` ms (linear
in the attempt number), and after the final attempt raises the terminal
failure carrying status 429; any other non-success response whose error
message does not contain `'secondly limit'` raises an API failure with
its status and message after exactly one attempt (a non-429 failure whose
message does contain `'secondly limit'` is retried — see the
counterexample). -/
theorem c6_rate_limit_retry_policy :
    (∀ (responses : Nat → HttpResponse) (retries : Nat),
      (∀ i, i ≤ retries → (responses i).status = 429) →
      hubspotRequest responses retries =
        ⟨retries + 1,
         (List.range' 0 retries).map (fun i => retryDelay (responses i) i),
         .failure 429 (apiErrorMessage (responses retries))⟩) ∧
    (∀ (responses : Nat → HttpResponse) (retries : Nat),
      (responses 0).status ≠ 429 →
      respOk (responses 0) = false →
      strContains (apiErrorMessage (responses 0)) "secondly limit" = false →
      hubspotRequest responses retries =
        ⟨1, [], .failure (responses 0).status (apiErrorMessage (responses 0))⟩) := by
  constructor
  · intro responses retries hall
    unfold hubspotRequest
    rw [hubspotRequestAux_all429 responses retries retries 0 0 [] (by omega)
      (fun i _ h2 => hall i h2)]
    simp
  · intro responses retries h429 hok hsec
    unfold hubspotRequest hubspotRequestAux
    rw [if_neg (fun hcon => h429 hcon.1)]
    rw [if_neg (by simp [hok])]
    rw [if_neg (fun hcon => by simp [hsec] at hcon)]

def c6Responses429 : Nat → HttpResponse :=
  fun i => ⟨429, if i = 0 then some 7 else none, none, "Too Many Requests"⟩

def c6BadResponses : Nat → HttpResponse :=
  fun _ => ⟨404, none, none, "Not Found"⟩

theorem c6_witness :
    hubspotRequest c6Responses429 defaultRetries =
      ⟨defaultRetries + 1,
       (List.range' 0 defaultRetries).map
         (fun i => retryDelay (c6Responses429 i) i),
       .failure 429 (apiErrorMessage (c6Responses429 defaultRetries))⟩ ∧
    hubspotRequest c6BadResponses 5 =
      ⟨1, [], .failure (c6BadResponses 0).status
        (apiErrorMessage (c6BadResponses 0))⟩ :=
  ⟨(c6_rate_limit_retry_policy).1 c6Responses429 defaultRetries (fun _ _ => rfl),
   (c6_rate_limit_retry_policy).2 c6BadResponses 5 (by decide) (by rfl) (by rfl)⟩

-- ## Claim C7

/-- C7: for the deal-name and address channels, `scoreMatch` computes
exactly the spec formula — base 85/90/95 for deal-name (substring /
case-insensitive equality of the cleaned fragment), base 80 (+5 leading
street number in stored address or name, +5 cleaned match longer than 25
chars) for address, plus 10 points per corroborating identifier type
beyond the first, capped at 100 — and the final score never exceeds
100 for any matchType. -/
theorem c7_score_formula (matchType matchValue : String) (deal : Deal)
    (parsed : ParsedIdentifiers) :
    ((matchType = "deal_name" ∨ matchType = "address") →
      scoreMatch matchType matchValue deal parsed =
        scoreMatchSpec matchType matchValue deal parsed) ∧
    scoreMatch matchType matchValue deal parsed ≤ 100 := by
  constructor
  · intro hmt
    rcases hmt with h | h <;> subst h <;>
      (dsimp only [scoreMatch, scoreMatchSpec, specDealNameBase, specAddressBase,
         specLeadingNumberBonus, specCorroboration]
       simp only [String.reduceEq, reduceIte, Bool.or_eq_true]
       split_ifs <;> omega)
  · dsimp only [scoreMatch]
    exact Nat.min_le_right _ 100

def c7Deal : Deal :=
  ⟨"D700", ⟨some "168 Las Palmas", some "399536679",
    some "168 Las Palmas Ave, Mesa, AZ", some "closedwon"⟩⟩

def c7Parsed : ParsedIdentifiers :=
  ⟨["399536679"], ["168 Las Palmas Ave, Mesa, AZ"], ["168 Las Palmas"]⟩

theorem c7_witness :
    scoreMatch "deal_name" "168 Las Palmas" c7Deal c7Parsed =
      scoreMatchSpec "deal_name" "168 Las Palmas" c7Deal c7Parsed ∧
    scoreMatch "address" "168 Las Palmas Ave, Mesa, AZ" c7Deal c7Parsed ≤ 100 :=
  ⟨(c7_score_formula "deal_name" "168 Las Palmas" c7Deal c7Parsed).1 (Or.inl rfl),
   (c7_score_formula "address" "168 Las Palmas Ave, Mesa, AZ" c7Deal c7Parsed).2⟩

-- ## Claim C8 (corrected)

def c8Deletion : WebhookEvent := ⟨"0-49", "object.deletion", none, "101"⟩

/-- C8 counterexample: an email-typed event whose change is neither a
creation nor a property change (here a deletion) is still processed, so
"processed iff creation or direction property change" fails in the
right-to-left direction. -/
theorem c8_counterexample :
    filterEvents [c8Deletion] = [c8Deletion] ∧
    c8Deletion.subscriptionType ≠ "object.creation" ∧
    c8Deletion.subscriptionType ≠ "object.propertyChange" := by
  refine ⟨by rfl, by decide, by decide⟩

lemma keepFirstById_cons (e : WebhookEvent) (rest : List WebhookEvent) :
    keepFirstById (e :: rest) =
      e :: keepFirstById (rest.filter (fun e2 => e2.objectId ≠ e.objectId)) := by
  conv_lhs => rw [keepFirstById]

lemma filterEventsAux_eq (events : List WebhookEvent) :
    ∀ (seen : List String),
    filterEventsAux events seen =
      keepFirstById ((events.filter eventPasses).filter
        (fun e => !(seen.contains e.objectId))) := by
  induction events with
  | nil => intro seen; simp [filterEventsAux, keepFirstById]
  | cons evt rest ih =>
    intro seen
    unfold filterEventsAux
    by_cases h1 : evt.objectTypeId ≠ "0-49"
    · rw [if_pos h1, ih seen]
      have hp : eventPasses evt = false := by simp [eventPasses, if_pos h1]
      simp [List.filter_cons, hp]
    · rw [if_neg h1]
      by_cases h2 : evt.subscriptionType = "object.propertyChange" ∧
          evt.propertyName ≠ some "hs_email_direction"
      · rw [if_pos h2, ih seen]
        have hp : eventPasses evt = false := by
          simp only [eventPasses, if_neg h1, if_pos h2]
        simp [List.filter_cons, hp]
      · rw [if_neg h2]
        have hp : eventPasses evt = true := by
          simp only [eventPasses, if_neg h1, if_neg h2]
        by_cases h3 : seen.contains evt.objectId
        · have h3' : evt.objectId ∈ seen := by simpa using h3
          rw [if_pos (by exact h3), ih seen]
          simp [List.filter_cons, hp, h3']
        · have h3' : ¬ (evt.objectId ∈ seen) := by simpa using h3
          have hrhs : ((evt :: rest).filter eventPasses).filter
              (fun e => !(seen.contains e.objectId)) =
              evt :: ((rest.filter eventPasses).filter
                (fun e => !(seen.contains e.objectId))) := by
            simp [List.filter_cons, hp, h3']
          have hfuse : (rest.filter eventPasses).filter
              (fun e => !((evt.objectId :: seen).contains e.objectId)) =
              ((rest.filter eventPasses).filter
                (fun e => !(seen.contains e.objectId))).filter
                (fun e2 => e2.objectId ≠ evt.objectId) := by
            simp only [List.filter_filter]
            apply List.filter_congr
            intro e _
            by_cases he : e.objectId = evt.objectId <;>
              by_cases hs : e.objectId ∈ seen <;>
                simp [he, hs, List.contains_cons]
          rw [if_neg (by exact h3), ih (evt.objectId :: seen), hfuse, hrhs,
            keepFirstById_cons]

/-- C8 amended: an inbound event is processed iff its object type marks
it as an email record AND its change is not a property change to a
property other than the email-direction property (creations and all
other non-property-change events are retained); among the retained
events, all events sharing an object identifier collapse to the first
one.  Formally: the handler's `uniqueEvents` computation equals
keep-first-by-identifier de-duplication of the `eventPasses` filter. -/
theorem c8_event_filter_dedup (events : List WebhookEvent) :
    filterEvents events = keepFirstById (events.filter eventPasses) := by
  unfold filterEvents
  rw [filterEventsAux_eq events []]
  congr 1
  apply List.filter_eq_self.mpr
  intro e _
  simp

-- ## Claim C9

/-- C9: a per-email processing failure is caught at the per-email
boundary and the remaining emails of the batch are still processed — the
handler's results and writes equal an event-wise `filterMap`/`flatMap`
over the de-duplicated batch, so one email's outcome never affects
another's; the invocation returns status 200 with `success: true` and
the count of matched emails regardless of per-email failures; and only a
missing API key aborts the whole batch (status 500, nothing processed). -/
theorem c9_per_email_isolation (w : World)
    (parse : String → String → ParsedIdentifiers) (k : String)
    (events : List WebhookEvent) :
    (handler w parse (some k) "POST" events).1.statusCode = 200 ∧
    (handler w parse (some k) "POST" events).1.body =
      .success
        ((filterEvents events).filterMap
          (fun evt => resultOfProcess (processEmail w parse evt.objectId))).length
        ((filterEvents events).filterMap
          (fun evt => resultOfProcess (processEmail w parse evt.objectId))) ∧
    (handler w parse (some k) "POST" events).2 =
      (filterEvents events).flatMap
        (fun evt => (processEmail w parse evt.objectId).2) ∧
    handler w parse none "POST" events =
      (⟨500, .jsonError "HUBSPOT_API_KEY not configured"⟩, []) := by
  have hloop : ∀ evts : List WebhookEvent,
      handlerLoop w parse evts =
        (evts.filterMap (fun evt => resultOfProcess (processEmail w parse evt.objectId)),
         evts.flatMap (fun evt => (processEmail w parse evt.objectId).2)) := by
    intro evts
    induction evts with
    | nil => simp [handlerLoop]
    | cons evt rest ih =>
      unfold handlerLoop
      rw [ih]
      dsimp only
      unfold resultOfProcess
      split
      · next r heq => simp [List.filterMap_cons, List.flatMap_cons, heq]
      · next heq => simp [List.filterMap_cons, List.flatMap_cons, heq]
      · next e heq => simp [List.filterMap_cons, List.flatMap_cons, heq]
  have hpost : handler w parse (some k) "POST" events =
      (⟨200, .success
        ((filterEvents events).filterMap
          (fun evt => resultOfProcess (processEmail w parse evt.objectId))).length
        ((filterEvents events).filterMap
          (fun evt => resultOfProcess (processEmail w parse evt.objectId)))⟩,
       (filterEvents events).flatMap
         (fun evt => (processEmail w parse evt.objectId).2)) := by
    unfold handler
    rw [if_neg (by decide : ¬ ("POST" = "GET")), if_pos rfl]
    dsimp only
    rw [hloop (filterEvents events)]
  refine ⟨by rw [hpost], by rw [hpost], by rw [hpost], ?_⟩
  unfold handler
  rw [if_neg (by decide : ¬ ("POST" = "GET")), if_pos rfl]
